import Mathlib

/-!
Verification development for the bento transaction-import pipeline.

Shallow embedding of the core normalization / classification /
transaction-synthesis code:
  * `src/bento/classifier/rule/rule_classify.py`  (rule matcher)
  * `src/bento/importers/wechat/wechat.py`
  * `src/bento/importers/alipay/alipay.py`
  * `src/bento/importers/boc/boc.py`
  * `src/bento/importers/boc/boc_credit.py`      (leg-merge engine)
  * `src/bento/importers/cmb/cmb.py`
  * `src/bento/importers/cmb/cmb_credit.py`
  * `src/bento/config.py`                        (default settings)

Modelling conventions:
  * Python `Decimal` amounts are modelled as `Rat` (exact arithmetic).
  * `datetime.date` is modelled as a `y/m/d` triple of naturals; the
    `.strftime` renderings that only feed metadata strings are modelled by a
    simple rendering function (`dateStr`), since no claim depends on the
    exact textual format.
  * Python exceptions inside a `try` block are modelled with `Except Unit`;
    the blanket `except Exception: return None` of each `_parse_transaction`
    maps an `.error` to `none`.
  * The pluggable classifier callback (`self.classifier`) is an
    `Option Classifier` where a call may also raise (`Except`).
  * `re.search` of the Python `re` standard library is external code.  The
    two fixed patterns the importers use (the WeChat fee pattern and the BOC
    credit description pattern) are implemented concretely below; the
    user-configurable `matches` rule predicate keeps `re.search` as an
    opaque boolean parameter (`PredEnv.re_search`), because no claim depends
    on regex semantics.
  * Python's `\d` is modelled as the ASCII digits `0`-`9`.
-/

deriving instance DecidableEq for Except

namespace Bento

/-- Calendar date (`datetime.date`): year, month, day. -/
structure Date where
  y : Nat
  m : Nat
  d : Nat
deriving DecidableEq, Repr

/-- Rendering of a date used when a date is stored into metadata
(`strftime("%Y-%m-%d")`); the exact text is irrelevant to every claim,
only its injectivity on the records at hand. -/
def dateStr (dt : Date) : String :=
  toString dt.y ++ "-" ++ toString dt.m ++ "-" ++ toString dt.d

/-- A metadata value: beancount metadata maps strings to strings, numbers
or booleans in this code base. -/
inductive MetaVal where
  | s : String → MetaVal
  | n : Nat → MetaVal
  | b : Bool → MetaVal
deriving DecidableEq, Repr

/-- Contiguous-substring test on character lists (`List.isPrefixOf` at some
position; the empty needle always succeeds, as in Python). -/
def subStr : List Char → List Char → Bool
  | n, [] => n.isEmpty
  | n, c :: rest => n.isPrefixOf (c :: rest) || subStr n rest

/-- Python's `needle in haystack` on strings. -/
def pyIn (needle hay : String) : Bool :=
  subStr needle.toList hay.toList

/-- Python's `str.lower()`.  (Lean's `Char.toLower` lowers the ASCII range;
the Chinese text these importers handle has no case, so nothing any claim
depends on differs.) -/
def pyLower (s : String) : String :=
  String.mk (s.toList.map Char.toLower)

/-- Python's `str.strip()`: drop whitespace from both ends. -/
def pyStrip (s : String) : String :=
  String.mk
    (((s.toList.dropWhile Char.isWhitespace).reverse.dropWhile
      Char.isWhitespace).reverse)

/-- Replace every (non-overlapping, leftmost-first) occurrence of a
non-empty pattern by nothing, with explicit fuel (the initial string length
suffices: every step consumes at least one character). -/
def eraseAllFuel (pat : List Char) : Nat → List Char → List Char
  | 0, s => s
  | _ + 1, [] => []
  | fuel + 1, c :: rest =>
      if pat.isPrefixOf (c :: rest) ∧ ¬pat.isEmpty then
        eraseAllFuel pat fuel ((c :: rest).drop pat.length)
      else c :: eraseAllFuel pat fuel rest

/-- Python's `s.replace(pat, "")` (the only form of `str.replace` the
source uses). -/
def pyEraseAll (s pat : String) : String :=
  String.mk (eraseAllFuel pat.toList s.toList.length s.toList)

/-- Model of `meta[key] = value` on a Python dict: replace the first (unique) binding
in place, else append at the end (insertion order preserved). -/
def setMeta : List (String × MetaVal) → String → MetaVal → List (String × MetaVal)
  | [], k, v => [(k, v)]
  | (k1, v1) :: rest, k, v =>
      if k1 = k then (k, v) :: rest else (k1, v1) :: setMeta rest k v

/-- Lookup of a key in a metadata dict. -/
def getMeta (meta : List (String × MetaVal)) (k : String) : Option MetaVal :=
  (meta.find? (fun e => decide (e.1 = k))).map (·.2)

/-- Model of `beancount.core.data.new_metadata(filename, 0)`: the two implicit keys.
`os.path.basename` is modelled as the identity on the (opaque) file name. -/
def newMetadata (fileName : String) : List (String × MetaVal) :=
  [("filename", .s fileName), ("lineno", .n 0)]

/-- Model of `settings.ledger.duplicate_meta` (src/bento/config.py, `LedgerSettings`). -/
def duplicate_meta : String := "__duplicate__"

/-- Model of `beancount.core.amount.Amount`: a number with a currency. -/
structure Amt where
  num : Rat
  currency : String
deriving DecidableEq, Repr

/-- One posting leg.  The source always passes `cost=None, price=None,
flag=None, meta=None`, so only account and (optional) units are modelled.
`units = none` is the implicit (to-be-interpolated) posting. -/
structure Posting where
  account : String
  units : Option Amt
deriving DecidableEq, Repr

/-- Model of `beancount.core.data.Transaction` as constructed by the importers
(`tags` and `links` are always the empty set and are omitted). -/
structure Transaction where
  meta : List (String × MetaVal)
  date : Date
  flag : String
  payee : String
  narration : String
  postings : List Posting
deriving DecidableEq, Repr

/-- Number of implicit (`units=None`) postings of a transaction. -/
def implicitCount (t : Transaction) : Nat :=
  (t.postings.filter (fun p => p.units.isNone)).length

/-- Sum of the explicit posting amounts of a transaction in one currency. -/
def explicitSum (t : Transaction) (c : String) : Rat :=
  (t.postings.map (fun p =>
    match p.units with
    | some a => if a.currency = c then a.num else 0
    | none => 0)).sum

/-- The balance invariant: at most one implicit posting (beancount
interpolation then assigns it the negated per-currency residual, so the
interpolated transaction sums to zero in every currency), and when there is
no implicit posting the explicit amounts must already sum to zero in every
currency. -/
def balancedTx (t : Transaction) : Prop :=
  implicitCount t ≤ 1 ∧ (implicitCount t = 0 → ∀ c, explicitSum t c = 0)

/-- A pluggable classifier callback: `classifier(payee, narration)` returns
`(reliable, predicted_account)` or raises. -/
def Classifier : Type := String → String → Except Unit (Bool × String)

/-- The `reliable = False; if self.classifier: reliable, predicted_account =
self.classifier(payee, narration)` prologue shared by every importer.  With
no classifier configured, `predicted_account` stays unbound in Python and is
never read (it is only read when `reliable` is true); the model supplies
`""`. -/
def runClassifier (cl : Option Classifier) (payee narration : String) :
    Except Unit (Bool × String) :=
  match cl with
  | none => .ok (false, "")
  | some f => f payee narration

/-! ## Rule classifier (src/bento/classifier/rule/rule_classify.py) -/

/-- The external regex capability used by the `matches` predicate:
`re.search(pattern, value)` as an opaque boolean function
(pattern first, value second). -/
structure PredEnv where
  re_search : String → String → Bool

/-- Model of `Predicates.get_predicate(name)`: resolves a predicate by name via
`getattr(Predicates, name)`.  The five string predicates of class
`Predicates` resolve; any other name raises `AttributeError` (modelled as
`none`; a name that resolved to a non-predicate attribute of the class would
equally raise on call — still an exception at the same program point). -/
def get_predicate (env : PredEnv) (name : String) :
    Option (String → String → Bool) :=
  if name = "equals" then some (fun v t => v == t)
  else if name = "contains" then some (fun v t => pyIn t v)
  else if name = "starts_with" then some (fun v t => v.startsWith t)
  else if name = "ends_with" then some (fun v t => v.endsWith t)
  else if name = "matches" then some (fun v p => env.re_search p v)
  else none

/-- Model of `value = payee if field == "payee" else narration if field ==
"narration" else ""`. -/
def fieldValue (payee narration field : String) : String :=
  if field = "payee" then payee
  else if field = "narration" then narration
  else ""

/-- The inner `# and` loop of `AccountRule.matches`: every predicate of one
field's condition block must hold on the lower-cased value/target; an
unknown predicate name raises (but only when the loop reaches it — a block
that already failed on an earlier predicate breaks first). -/
def condBlockHolds (env : PredEnv) (value : String) :
    List (String × String) → Except Unit Bool
  | [] => .ok true
  | (nm, target) :: rest =>
      match get_predicate env nm with
      | none => .error ()
      | some f =>
          if f (pyLower value) (pyLower target) then condBlockHolds env value rest
          else .ok false

/-- Model of `AccountRule` (dataclass): `condition` is the ordered
field → (predicate-name → target) map. -/
structure AccountRule where
  name : String
  condition : List (String × List (String × String))
  prediction_account : String
deriving Repr

/-- The outer `# or` loop of `AccountRule.matches` over the condition
fields: a field with an empty value is skipped; the first fully-satisfied
block returns true; exceptions propagate. -/
def matchFields (env : PredEnv) (payee narration : String) :
    List (String × List (String × String)) → Except Unit Bool
  | [] => .ok false
  | (field, conds) :: rest =>
      let value := fieldValue payee narration field
      if value = "" then matchFields env payee narration rest
      else
        match condBlockHolds env value conds with
        | .error e => .error e
        | .ok true => .ok true
        | .ok false => matchFields env payee narration rest

/-- Model of `AccountRule.matches(payee, narration)` (may raise). -/
def AccountRule.matchesE (rule : AccountRule) (env : PredEnv)
    (payee narration : String) : Except Unit Bool :=
  matchFields env payee narration rule.condition

/-- Model of `RuleAccountClassifier.classify(payee, narration)`: first rule in
declared order that matches wins; `(False, None)` after exhausting all
rules; an exception from `matches` propagates. -/
def classifyE (env : PredEnv) (rules : List AccountRule)
    (payee narration : String) : Except Unit (Bool × Option String) :=
  match rules with
  | [] => .ok (false, none)
  | r :: rest =>
      match r.matchesE env payee narration with
      | .error e => .error e
      | .ok true => .ok (true, some r.prediction_account)
      | .ok false => classifyE env rest payee narration

/-- One raw rule as read from the yaml config (`rule["name"]`,
`rule["condition"]`, `rule["prediction_account"]`). -/
structure RawRule where
  name : String
  condition : List (String × List (String × String))
  prediction_account : String
deriving Repr

/-- Model of `RuleAccountClassifier._load_rules`: builds an `AccountRule` from the
three keys of each raw rule.  The loader inspects nothing else — in
particular it never looks at the predicate names inside `condition`. -/
def load_rules (config : List RawRule) : List AccountRule :=
  config.map (fun r => ⟨r.name, r.condition, r.prediction_account⟩)

/-! ## WeChat importer (src/bento/importers/wechat/wechat.py) -/

/-- WeChat CSV `Record`; `transaction_time : datetime` is split into the
date part (used for the transaction date) and the rendered time-of-day
string (only stored into metadata). -/
structure WRecord where
  transaction_date : Date
  transaction_time : String
  transaction_category : String
  transaction_counterparty : String
  product : String
  income_expense : String
  amount : Rat
  payment_method : String
  transaction_status : String
  wechat_trade_no : String
  out_trade_no : String
  note : String
deriving DecidableEq, Repr

/-- WeChat importer configuration (constructor arguments plus the fixed
`income_account = "Income:RedPacket"` set in `__init__`). -/
structure WechatCfg where
  account : String
  fee_account : String
  additional_accounts : List (String × String)
  expense_account : String
  classifier : Option Classifier

/-- Model of `Importer._get_asset_account`: `additional_accounts.get(payment_method,
self.account)`. -/
def wechatAssetAccount (cfg : WechatCfg) (payment_method : String) : String :=
  ((cfg.additional_accounts.find? (fun e => decide (e.1 = payment_method))).map
    (·.2)).getD cfg.account

/-- Model of `natOfDigits` folds ASCII digits into a natural number. -/
def natOfDigits (l : List Char) : Nat :=
  l.foldl (fun a c => a * 10 + (c.toNat - 48)) 0

/-- Attempt to match the fee pattern `服务费¥(\d+\.?\d*)` at the head of a
character list; returns the captured decimal as a `Rat`.  The greedy `\d+`
takes a maximal digit run, the optional `\.` is taken when present, then
`\d*` takes a maximal digit run again. -/
def feeMatchAt (l : List Char) : Option Rat :=
  let pre := "服务费¥".toList
  if pre.isPrefixOf l then
    let rest := l.drop pre.length
    let d1 := rest.takeWhile Char.isDigit
    if d1.isEmpty then none
    else
      let rest2 := rest.drop d1.length
      match rest2 with
      | '.' :: rest3 =>
          let d2 := rest3.takeWhile Char.isDigit
          some ((natOfDigits d1 : Rat) + (natOfDigits d2 : Rat) / (10 : Rat) ^ d2.length)
      | _ => some ((natOfDigits d1 : Rat))
  else none

/-- Model of `re.search(r"服务费¥(\d+\.?\d*)", note)`: leftmost match. -/
def feeSearch : List Char → Option Rat
  | [] => none
  | c :: rest =>
      match feeMatchAt (c :: rest) with
      | some r => some r
      | none => feeSearch rest

/-- The withdrawal-fee computation of `_parse_transaction` for the
`零钱提现` subtype: `fee = 0`, overwritten by the captured group only when
the note is non-empty, mentions `服务费`, and the search pattern matches. -/
def wechatFee (note : String) : Rat :=
  if note ≠ "" ∧ pyIn "服务费" note then (feeSearch note.toList).getD 0
  else 0

/-- Payee used by the WeChat importer. -/
def wechatPayee (r : WRecord) : String := r.transaction_counterparty

/-- Narration used by the WeChat importer: the product text with every
occurrence of the transfer-note marker `转账备注:` (`self.comment_prefix`)
removed when it occurs. -/
def wechatNarration (r : WRecord) : String :=
  if pyIn "转账备注:" r.product then pyEraseAll r.product "转账备注:"
  else r.product

/-- Model of `wechat.Importer._parse_transaction` (the `try` body; an exception —
here only a classifier raise — yields `none`). -/
def wechatParse (cfg : WechatCfg) (fileName : String) (r : WRecord) :
    Option Transaction :=
  let transaction_type := r.transaction_category
  let payee := wechatPayee r
  let narration := wechatNarration r
  let meta0 :=
    [("transaction_type", MetaVal.s transaction_type),
     ("payment_method", MetaVal.s r.payment_method),
     ("time", MetaVal.s r.transaction_time)]
  let meta1 := if r.note ≠ "" ∧ r.note ≠ "/"
    then meta0 ++ [("note", MetaVal.s (pyStrip r.note))] else meta0
  let meta2 := if r.wechat_trade_no ≠ ""
    then meta1 ++ [("wechat_trade_no", MetaVal.s (pyStrip r.wechat_trade_no))] else meta1
  let meta3 := if r.out_trade_no ≠ "" ∧ r.out_trade_no ≠ "/"
    then meta2 ++ [("out_trade_no", MetaVal.s (pyStrip r.out_trade_no))] else meta2
  let asset_account := wechatAssetAccount cfg r.payment_method
  match runClassifier cfg.classifier payee narration with
  | .error _ => none
  | .ok (reliable, predicted_account) =>
      let postings :=
        if r.income_expense = "收入" then
          [Posting.mk asset_account (some ⟨r.amount, "CNY"⟩),
           Posting.mk "Income:RedPacket" none]
        else if transaction_type = "零钱提现" then
          [Posting.mk asset_account (some ⟨-r.amount, "CNY"⟩),
           Posting.mk (wechatAssetAccount cfg r.payment_method) none,
           Posting.mk cfg.fee_account (some ⟨wechatFee r.note, "CNY"⟩)]
        else
          [Posting.mk asset_account none,
           Posting.mk (if reliable then predicted_account else cfg.expense_account)
             (some ⟨r.amount, "CNY"⟩)]
      some
        { meta := newMetadata fileName ++ meta3
          date := r.transaction_date
          flag :=
            if r.income_expense = "收入" ∨ transaction_type = "零钱提现" ∨ reliable
            then "*" else "!"
          payee := payee
          narration := narration
          postings := postings }

/-! ## Alipay importer (src/bento/importers/alipay/alipay.py) -/

/-- Alipay CSV `Record`. -/
structure ARecord where
  transaction_date : Date
  transaction_category : String
  transaction_counterparty : String
  counterparty_account : String
  product_description : String
  income_expense : String
  amount : Rat
  payment_method : String
  transaction_status : String
  transaction_order_number : String
  merchant_order_number : String
  notes : String
deriving DecidableEq, Repr

/-- Alipay importer configuration (with the fixed
`income_account = "Income:RedPacket"`). -/
structure AlipayCfg where
  account : String
  additional_accounts : List (String × String)
  expense_account : String
  classifier : Option Classifier

/-- Alipay `Importer._get_asset_account`. -/
def alipayAssetAccount (cfg : AlipayCfg) (payment_method : String) : String :=
  ((cfg.additional_accounts.find? (fun e => decide (e.1 = payment_method))).map
    (·.2)).getD cfg.account

/-- Payee used by the Alipay importer. -/
def alipayPayee (r : ARecord) : String := r.transaction_counterparty

/-- Narration used by the Alipay importer:
`f"{transaction_category} {product_description}"`. -/
def alipayNarration (r : ARecord) : String :=
  r.transaction_category ++ " " ++ r.product_description

/-- Model of `alipay.Importer._parse_transaction` (the `try` body; an exception —
here only a classifier raise — yields `none`, as does the explicit
`余额宝` skip). -/
def alipayParse (cfg : AlipayCfg) (fileName : String) (r : ARecord) :
    Option Transaction :=
  let payee := alipayPayee r
  if payee = "余额宝" then none
  else
    let narration := alipayNarration r
    let is_expense := r.income_expense = "支出"
    let meta0 :=
      [("transaction_type", MetaVal.s r.transaction_category),
       ("payment_method", MetaVal.s r.payment_method)]
    let meta1 := if r.transaction_order_number ≠ ""
      then meta0 ++ [("alipay_trade_no", MetaVal.s (pyStrip r.transaction_order_number))]
      else meta0
    let meta2 := if r.merchant_order_number ≠ "" ∧ r.merchant_order_number ≠ "/"
      then meta1 ++ [("out_trade_no", MetaVal.s (pyStrip r.merchant_order_number))]
      else meta1
    let asset_account := alipayAssetAccount cfg r.payment_method
    match runClassifier cfg.classifier payee narration with
    | .error _ => none
    | .ok (reliable, predicted_account) =>
        let postings :=
          if is_expense then
            [Posting.mk asset_account none,
             Posting.mk (if reliable then predicted_account else cfg.expense_account)
               (some ⟨r.amount, "CNY"⟩)]
          else
            [Posting.mk asset_account (some ⟨r.amount, "CNY"⟩),
             Posting.mk (if reliable then predicted_account else "Income:RedPacket")
               none]
        some
          { meta := newMetadata fileName ++ meta2
            date := r.transaction_date
            flag := if reliable then "*" else "!"
            payee := payee
            narration := narration
            postings := postings }

/-! ## BOC debit importer (src/bento/importers/boc/boc.py) -/

/-- BOC debit `Record`. -/
structure BocRecord where
  card_last_four : String
  transaction_date : Date
  transaction_time : String
  currency : String
  is_expense : Bool
  amount : Rat
  balance : Rat
  transaction_name : String
  transaction_channel : String
  transaction_site : String
  comment : String
  counterparty_account_name : String
  counterparty_card_number : String
  counterparty_bank : String
deriving DecidableEq, Repr

/-- BOC debit importer configuration. -/
structure BocCfg where
  account : String
  expense_account : String
  income_account : String
  ignore_apps : Bool
  classifier : Option Classifier

/-- Model of `apps = ["微信", "支付宝"]` of boc.py. -/
def bocApps : List String := ["微信", "支付宝"]

/-- Payee used by the BOC debit importer:
`f"{counterparty_account_name} {counterparty_card_number}"`. -/
def bocPayee (r : BocRecord) : String :=
  r.counterparty_account_name ++ " " ++ r.counterparty_card_number

/-- Narration used by the BOC debit importer:
`f"{transaction_name} {transaction_channel}"`. -/
def bocNarration (r : BocRecord) : String :=
  r.transaction_name ++ " " ++ r.transaction_channel

/-- Model of `boc.Importer._parse_transaction` (the `try` body).  A record whose
currency is not `人民币` returns `None` (skip); a classifier raise is
caught by the blanket `except` and also yields `none`. -/
def bocParse (cfg : BocCfg) (fileName : String) (card_last_four : String)
    (r : BocRecord) : Option Transaction :=
  if r.currency ≠ "人民币" then none
  else
    let payee := bocPayee r
    let narration := bocNarration r
    match runClassifier cfg.classifier payee narration with
    | .error _ => none
    | .ok (reliable, predicted_account) =>
        let postings :=
          if r.is_expense then
            [Posting.mk (cfg.account ++ ":" ++ card_last_four) none,
             Posting.mk (if reliable then predicted_account else cfg.expense_account)
               (some ⟨r.amount, "CNY"⟩)]
          else
            [Posting.mk (cfg.account ++ ":" ++ card_last_four)
               (some ⟨r.amount, "CNY"⟩),
             Posting.mk (if reliable then predicted_account else cfg.income_account)
               none]
        let meta0 := newMetadata fileName ++ [("time", MetaVal.s r.transaction_time)]
        let meta :=
          if cfg.ignore_apps ∧ bocApps.any (fun app => pyIn app payee)
          then setMeta meta0 duplicate_meta (.b true) else meta0
        some
          { meta := meta
            date := r.transaction_date
            flag := if reliable then "*" else "!"
            payee := payee
            narration := narration
            postings := postings }

/-- Model of `boc.Importer.extract`: every record of the statement is parsed in
order; records whose parse returns `None` are skipped and processing
continues (`extract` passes `record.card_last_four` as the card). -/
def bocExtract (cfg : BocCfg) (fileName : String) (recs : List BocRecord) :
    List Transaction :=
  recs.filterMap (fun r => bocParse cfg fileName r.card_last_four r)

/-! ## CMB debit importer (src/bento/importers/cmb/cmb.py) -/

/-- CMB debit `Record`. -/
structure CmbRecord where
  card_last_four : String
  transaction_date : Date
  transaction_time : String
  is_expense : Bool
  amount : Rat
  balance : Rat
  transaction_type : String
  transaction_note : String
deriving DecidableEq, Repr

/-- CMB debit importer configuration. -/
structure CmbCfg where
  account : String
  expense_account : String
  income_account : String
  ignore_apps : Bool
  classifier : Option Classifier

/-- Model of `apps = ["财付通-"]` of cmb.py. -/
def cmbApps : List String := ["财付通-"]

/-- Model of `cmb.Importer._parse_transaction` (the `try` body). -/
def cmbParse (cfg : CmbCfg) (fileName : String) (r : CmbRecord) :
    Option Transaction :=
  let payee := r.transaction_type
  let narration := r.transaction_note
  match runClassifier cfg.classifier payee narration with
  | .error _ => none
  | .ok (reliable, predicted_account) =>
      let postings :=
        if r.is_expense then
          [Posting.mk (cfg.account ++ ":" ++ r.card_last_four) none,
           Posting.mk (if reliable then predicted_account else cfg.expense_account)
             (some ⟨r.amount, "CNY"⟩)]
        else
          [Posting.mk (cfg.account ++ ":" ++ r.card_last_four)
             (some ⟨r.amount, "CNY"⟩),
           Posting.mk (if reliable then predicted_account else cfg.income_account)
             none]
      let meta0 := newMetadata fileName ++ [("time", MetaVal.s r.transaction_time)]
      let meta :=
        if cfg.ignore_apps ∧ cmbApps.any (fun app => pyIn app narration)
        then setMeta meta0 duplicate_meta (.b true) else meta0
      some
        { meta := meta
          date := r.transaction_date
          flag := if reliable then "*" else "!"
          payee := payee
          narration := narration
          postings := postings }

/-! ## CMB credit importer (src/bento/importers/cmb/cmb_credit.py) -/

/-- CMB credit `Record` (`transaction_date` is `None` for `还款` rows). -/
structure CCRecord where
  transaction_type : String
  transaction_date : Option Date
  posted_date : Date
  transaction_description : String
  amount : Rat
  card_last_four : String
deriving DecidableEq, Repr

/-- CMB credit importer configuration. -/
structure CmbCreditCfg where
  account : String
  expense_account : String
  asset_account : String
  ignore_apps : Bool
  classifier : Option Classifier

/-- Model of `apps = ["微信", "支付宝"]` of cmb_credit.py. -/
def cmbCreditApps : List String := ["微信", "支付宝"]

/-- Model of `description.split("-", 1)` when `-` occurs, else
`(description, "")`. -/
def ccDescSplit (desc : String) : String × String :=
  let cs := desc.toList
  if pyIn "-" desc then
    (String.mk (cs.takeWhile (fun c => c ≠ '-')),
     String.mk ((cs.dropWhile (fun c => c ≠ '-')).drop 1))
  else (desc, "")

/-- Model of `cmb_credit.Importer._parse_transaction` (the `try` body). -/
def cmbCreditParse (cfg : CmbCreditCfg) (fileName : String) (r : CCRecord) :
    Option Transaction :=
  let transaction_date := r.transaction_date.getD r.posted_date
  let payee := (ccDescSplit r.transaction_description).1
  let narration := (ccDescSplit r.transaction_description).2
  let is_expense := r.transaction_type = "消费"
  match runClassifier cfg.classifier payee narration with
  | .error _ => none
  | .ok (reliable, predicted_account) =>
      let postings :=
        if is_expense then
          [Posting.mk (cfg.account ++ ":" ++ r.card_last_four) none,
           Posting.mk (if reliable then predicted_account else cfg.expense_account)
             (some ⟨r.amount, "CNY"⟩)]
        else
          [Posting.mk (cfg.account ++ ":" ++ r.card_last_four)
             (some ⟨r.amount, "CNY"⟩),
           Posting.mk (if reliable then predicted_account else cfg.asset_account)
             none]
      let meta0 := newMetadata fileName
      let meta1 :=
        if cfg.ignore_apps ∧ cmbCreditApps.any (fun app => pyIn app payee)
        then setMeta meta0 duplicate_meta (.b true) else meta0
      let meta2 :=
        if r.transaction_type = "还款"
        then setMeta meta1 duplicate_meta (.b true) else meta1
      some
        { meta := meta2
          date := transaction_date
          flag := if reliable then "*" else "!"
          payee := payee
          narration := narration
          postings := postings }

/-! ## BOC credit importer and its leg-merge engine
(src/bento/importers/boc/boc_credit.py) -/

/-- BOC credit `Record`. -/
structure BCRecord where
  transaction_date : Date
  posted_date : Date
  card_last_four : String
  description : String
  amount : Rat
  currency : String
  is_expense : Bool
deriving DecidableEq, Repr

/-- BOC credit importer configuration. -/
structure BocCreditCfg where
  account : String
  expense_account : String
  asset_account : String
  ignore_apps : Bool
  classifier : Option Classifier

/-- Model of `apps = ["微信"]` of boc_credit.py. -/
def bocCreditApps : List String := ["微信"]

/-- Model of `re.search(r"(.*)\[(.*?)\]", description)`: the greedy leading group
selects the LAST `[` that is still followed by a `]`; the lazy middle group
then stops at the first following `]`.  Returns `(group1, group2)` on a
match. -/
def bracketSplit : List Char → Option (List Char × List Char)
  | [] => none
  | c :: rest =>
      match bracketSplit rest with
      | some (pre, mid) => some (c :: pre, mid)
      | none =>
          if c = '[' ∧ (rest.any (fun x => x = ']'))
          then some ([], rest.takeWhile (fun x => x ≠ ']'))
          else none

/-- Payee/narration of the BOC credit importer: the bracket split (both
sides `.strip()`ped) when the pattern matches, else the raw description
with empty narration. -/
def bcDescSplit (desc : String) : String × String :=
  match bracketSplit desc.toList with
  | some (pre, mid) => (pyStrip (String.mk pre), pyStrip (String.mk mid))
  | none => (desc, "")

/-- Payee of a BOC credit record. -/
def bcPayee (r : BCRecord) : String := (bcDescSplit r.description).1

/-- Narration of a BOC credit record. -/
def bcNarration (r : BCRecord) : String := (bcDescSplit r.description).2

/-- The merge key: `(transaction_date, card_last_four, payee)` where
`transaction_date = record.posted_date`. -/
def bcKey (r : BCRecord) : Date × String × String :=
  (r.posted_date, r.card_last_four, bcPayee r)

/-- The merge-engine state: `cached_entries`, an insertion-ordered map from
merge key to the (mutable, aliased) transaction.  Because Python's
`entries` list holds references to the same objects, the emitted list is
exactly the state's transactions in insertion order. -/
abbrev MState : Type := List ((Date × String × String) × Transaction)

/-- First transaction stored under a key. -/
def findTx (s : MState) (k : Date × String × String) : Option Transaction :=
  (s.find? (fun e => decide (e.1 = k))).map (·.2)

/-- In-place update of the first entry with the given key. -/
def updTx : MState → (Date × String × String) → (Transaction → Transaction) → MState
  | [], _, _ => []
  | (k1, t) :: rest, k, f =>
      if k1 = k then (k1, f t) :: rest else (k1, t) :: updTx rest k f

/-- The posting appended on a merge hit
(`data.create_simple_posting(entry, account, -amount if is_expense else
amount, currency)`). -/
def bcMergePosting (cfg : BocCreditCfg) (r : BCRecord) : Posting :=
  ⟨cfg.account ++ ":" ++ r.card_last_four,
   some ⟨if r.is_expense then -r.amount else r.amount, r.currency⟩⟩

/-- The fresh transaction synthesized for the first record under a key. -/
def bcFresh (cfg : BocCreditCfg) (fileName : String) (r : BCRecord)
    (reliable : Bool) (predicted_account : String) : Transaction :=
  let postings :=
    if r.is_expense then
      [Posting.mk (cfg.account ++ ":" ++ r.card_last_four)
         (some ⟨-r.amount, r.currency⟩),
       Posting.mk (if reliable then predicted_account else cfg.expense_account)
         none]
    else
      [Posting.mk (cfg.account ++ ":" ++ r.card_last_four)
         (some ⟨r.amount, r.currency⟩),
       Posting.mk (if reliable then predicted_account else cfg.asset_account)
         none]
  let meta0 := newMetadata fileName ++
    [("transaction_date", MetaVal.s (dateStr r.transaction_date))]
  let meta :=
    if cfg.ignore_apps ∧ bocCreditApps.any (fun app => pyIn app (bcPayee r))
    then setMeta meta0 duplicate_meta (.b true) else meta0
  { meta := meta
    date := r.posted_date
    flag := if reliable then "*" else "!"
    payee := bcPayee r
    narration := bcNarration r
    postings := postings }

/-- One record folded through `boc_credit.Importer._parse_transaction` with
the shared `cached_entries` map.  The classifier is called before the cache
lookup, so a classifier raise (caught by the blanket `except`) leaves the
state unchanged; a cache hit appends one signed posting to the cached
transaction and creates nothing; a miss synthesizes and caches a fresh
transaction. -/
def bocCreditStep (cfg : BocCreditCfg) (fileName : String) (s : MState)
    (r : BCRecord) : MState :=
  match runClassifier cfg.classifier (bcPayee r) (bcNarration r) with
  | .error _ => s
  | .ok (reliable, predicted_account) =>
      match findTx s (bcKey r) with
      | some _ =>
          updTx s (bcKey r)
            (fun t => { t with postings := t.postings ++ [bcMergePosting cfg r] })
      | none => s ++ [(bcKey r, bcFresh cfg fileName r reliable predicted_account)]

/-- Model of `boc_credit.Importer.extract` starting from a given cache state: the
emitted entries are the cached transactions in insertion order (Python's
`entries` list aliases the cached objects, so merge-appended postings are
visible in the output). -/
def bocCreditExtractFrom (cfg : BocCreditCfg) (fileName : String) (s : MState)
    (recs : List BCRecord) : List Transaction :=
  (recs.foldl (bocCreditStep cfg fileName) s).map (·.2)

/-- Model of `boc_credit.Importer.extract`: `cached_entries = {}` is created fresh
on every call. -/
def bocCreditExtract (cfg : BocCreditCfg) (fileName : String)
    (recs : List BCRecord) : List Transaction :=
  bocCreditExtractFrom cfg fileName [] recs

/-! ## Helper lemmas for the rule classifier -/

/-- A fixed predicate environment whose `re.search` capability always
reports no match (any concrete choice works for the claims below, which do
not depend on regex semantics). -/
def envNoRe : PredEnv := ⟨fun _ _ => false⟩

/-- If `classifyE` succeeds with a match, the account comes from some rule
`i` that matches, and every rule before `i` evaluated to a clean
non-match. -/
theorem classifyE_ok_true (env : PredEnv) (payee narration : String) :
    ∀ (rules : List AccountRule) (a : String),
      classifyE env rules payee narration = .ok (true, some a) →
      ∃ i, ∃ hi : i < rules.length,
        (rules.get ⟨i, hi⟩).prediction_account = a ∧
        (rules.get ⟨i, hi⟩).matchesE env payee narration = .ok true ∧
        ∀ j, ∀ hj : j < rules.length, j < i →
          (rules.get ⟨j, hj⟩).matchesE env payee narration = .ok false
  | [], a, h => by simp [classifyE] at h
  | r :: rest, a, h => by
      rw [classifyE] at h
      cases hm : r.matchesE env payee narration with
      | error e => rw [hm] at h; cases h
      | ok b =>
        cases b with
        | true =>
            rw [hm] at h
            refine ⟨0, by simp, ?_, by simpa using hm, ?_⟩
            · simpa using (by cases h; rfl : r.prediction_account = a)
            · intro j hj hj0; omega
        | false =>
            rw [hm] at h
            obtain ⟨i, hi, hacc, hmi, hbefore⟩ := classifyE_ok_true env payee narration rest a h
            refine ⟨i + 1, by simpa using Nat.succ_lt_succ hi, by simpa using hacc,
              by simpa using hmi, ?_⟩
            intro j hj hji
            cases j with
            | zero => simpa using hm
            | succ j =>
                have hj1 : j < rest.length := by simpa using Nat.lt_of_succ_lt_succ hj
                simpa using hbefore j hj1 (Nat.lt_of_succ_lt_succ hji)

/-- If every rule evaluates to a clean non-match, `classifyE` returns
`(False, None)`. -/
theorem classifyE_exhaust (env : PredEnv) (payee narration : String) :
    ∀ rules : List AccountRule,
      (∀ r ∈ rules, r.matchesE env payee narration = .ok false) →
      classifyE env rules payee narration = .ok (false, none)
  | [], _ => rfl
  | r :: rest, h => by
      rw [classifyE, h r (by simp)]
      exact classifyE_exhaust env payee narration rest (fun x hx => h x (by simp [hx]))

/-- C3: `classify(payee, narration)` returns `(True, account)` of the first
rule, in declared list order, whose condition is satisfied — if the
returned account comes from rule `i`, no rule `j < i` matches — and after
exhausting all rules without a match it returns `(False, None)`. -/
theorem c3_first_match_wins (env : PredEnv) (rules : List AccountRule)
    (payee narration : String) (a : String) :
    (classifyE env rules payee narration = .ok (true, some a) →
      ∃ i, ∃ hi : i < rules.length,
        (rules.get ⟨i, hi⟩).prediction_account = a ∧
        (rules.get ⟨i, hi⟩).matchesE env payee narration = .ok true ∧
        ∀ j, ∀ hj : j < rules.length, j < i →
          (rules.get ⟨j, hj⟩).matchesE env payee narration = .ok false) ∧
    ((∀ r ∈ rules, r.matchesE env payee narration = .ok false) →
      classifyE env rules payee narration = .ok (false, none)) :=
  ⟨classifyE_ok_true env payee narration rules a,
   classifyE_exhaust env payee narration rules⟩

/-- Two concrete rules: the first does not match payee "starbucks", the
second does (via `contains`). -/
def rulesC3 : List AccountRule :=
  [⟨"rent", [("payee", [("contains", "landlord")])], "Expenses:Rent"⟩,
   ⟨"coffee", [("payee", [("contains", "starbucks")])], "Expenses:Coffee"⟩]

/-- Witness for C3 at a concrete rule list and inputs: a match coming from
the second rule implies the first one does not match, and an input matching
no rule yields `(False, None)`. -/
theorem c3_first_match_wins_witness :
    (∃ i, ∃ hi : i < rulesC3.length,
      (rulesC3.get ⟨i, hi⟩).prediction_account = "Expenses:Coffee" ∧
      (rulesC3.get ⟨i, hi⟩).matchesE envNoRe "STARBUCKS COFFEE" "" = .ok true ∧
      ∀ j, ∀ hj : j < rulesC3.length, j < i →
        (rulesC3.get ⟨j, hj⟩).matchesE envNoRe "STARBUCKS COFFEE" "" = .ok false) ∧
    classifyE envNoRe rulesC3 "tax office" "" = .ok (false, none) :=
  ⟨(c3_first_match_wins envNoRe rulesC3 "STARBUCKS COFFEE" "" "Expenses:Coffee").1
      (by decide),
   (c3_first_match_wins envNoRe rulesC3 "tax office" "" "").2 (by decide)⟩

/-! ## C4: unknown predicate names (corrected) -/

/-- A raw rule whose condition uses the unknown predicate name `"foo"`. -/
def rawUnknown : List RawRule :=
  [⟨"bad", [("payee", [("foo", "x")])], "Expenses:X"⟩]

/-- C4 counterexample: `_load_rules` performs no predicate-name validation,
so loading a rule set with the unknown predicate name `"foo"` succeeds and
produces the rule verbatim; the configuration error is NOT raised before a
classify call — it surfaces only when `classify` first evaluates the rule
(an `AttributeError` from `getattr`, modelled as `.error`). -/
theorem c4_load_time_cex :
    load_rules rawUnknown =
      [⟨"bad", [("payee", [("foo", "x")])], "Expenses:X"⟩] ∧
    classifyE envNoRe (load_rules rawUnknown) "somepayee" "" = .error () :=
  ⟨rfl, rfl⟩

/-- C4 amended: rule loading copies every rule verbatim (no validation of
predicate names), and an unknown predicate name fails loudly at match time:
any classify call whose evaluation reaches the unknown name — here, the
first rule's first condition block, on a non-empty field value — raises
instead of silently skipping. -/
theorem c4_unknown_predicate_match_time (env : PredEnv) (raw : List RawRule)
    (field nm target rname acct payee narration : String)
    (condsRest : List (String × String))
    (fieldsRest : List (String × List (String × String)))
    (rules : List AccountRule)
    (hunk : get_predicate env nm = none)
    (hval : fieldValue payee narration field ≠ "") :
    load_rules raw =
      raw.map (fun r => ⟨r.name, r.condition, r.prediction_account⟩) ∧
    classifyE env
      (⟨rname, (field, (nm, target) :: condsRest) :: fieldsRest, acct⟩ :: rules)
      payee narration = .error () := by
  refine ⟨rfl, ?_⟩
  rw [classifyE, AccountRule.matchesE]
  simp only [matchFields, if_neg hval, condBlockHolds, hunk]

/-- Witness for the amended C4 at a concrete rule set and input. -/
theorem c4_unknown_predicate_match_time_witness :
    load_rules rawUnknown =
      rawUnknown.map (fun r => ⟨r.name, r.condition, r.prediction_account⟩) ∧
    classifyE envNoRe
      [⟨"bad", [("payee", [("foo", "x")])], "Expenses:X"⟩] "somepayee" "" =
      .error () :=
  c4_unknown_predicate_match_time envNoRe rawUnknown "payee" "foo" "x" "bad"
    "Expenses:X" "somepayee" "" [] [] [] rfl (by decide)

/-! ## C9: a field bound to an empty predicate block (corrected) -/

/-- A condition block all of whose predicate names resolve never raises. -/
theorem condBlockHolds_total (env : PredEnv) (value : String) :
    ∀ conds : List (String × String),
      (∀ pt ∈ conds, (get_predicate env pt.1).isSome) →
      ∃ b, condBlockHolds env value conds = .ok b
  | [], _ => ⟨true, rfl⟩
  | (nm, target) :: rest, h => by
      obtain ⟨f, hf⟩ := Option.isSome_iff_exists.mp (h (nm, target) (by simp))
      by_cases hp : f (pyLower value) (pyLower target)
      · obtain ⟨b, hb⟩ :=
          condBlockHolds_total env value rest (fun pt hpt => h pt (by simp [hpt]))
        exact ⟨b, by simp [condBlockHolds, hf, hp, hb]⟩
      · exact ⟨false, by simp [condBlockHolds, hf, hp]⟩

/-- C9 counterexample: a rule that binds `narration` to an empty predicate
block but whose earlier `payee` block uses an unknown predicate name.  On
an input with both fields non-empty, `matches` raises (`AttributeError`)
before ever reaching the empty block, so it does not return True. -/
def ruleC9 : AccountRule :=
  ⟨"r", [("payee", [("bogus", "t")]), ("narration", [])], "Expenses:A"⟩

/-- The concrete refutation of C9 as stated: the rule binds a field to an
empty predicate map and the input's value for that field is non-empty, yet
`matches` does not return True (it raises). -/
theorem c9_empty_block_cex :
    ("narration", ([] : List (String × String))) ∈ ruleC9.condition ∧
    fieldValue "x" "y" "narration" ≠ "" ∧
    ruleC9.matchesE envNoRe "x" "y" = .error () :=
  ⟨by decide, by decide, rfl⟩

/-- C9 amended: for every rule whose condition binds some field to an empty
predicate block, and every input whose value for that field is non-empty,
`matches` returns True — provided every predicate name occurring in the
rule's condition is a known one (an unknown name in an earlier block raises
instead). -/
theorem c9_empty_block_matches (env : PredEnv) (rule : AccountRule)
    (payee narration field : String)
    (hmem : (field, ([] : List (String × String))) ∈ rule.condition)
    (hval : fieldValue payee narration field ≠ "")
    (hknown : ∀ fc ∈ rule.condition, ∀ pt ∈ fc.2,
      (get_predicate env pt.1).isSome) :
    rule.matchesE env payee narration = .ok true := by
  rw [AccountRule.matchesE]
  revert hmem hknown
  generalize rule.condition = conds
  intro hmem hknown
  induction conds with
  | nil => cases hmem
  | cons fc rest ih =>
      rw [matchFields]
      rcases List.mem_cons.mp hmem with heq | hmem2
      · subst heq
        rw [if_neg hval]
        rfl
      · by_cases hv : fieldValue payee narration fc.1 = ""
        · rw [if_pos hv]
          exact ih hmem2 (fun x hx => hknown x (by simp [hx]))
        · rw [if_neg hv]
          obtain ⟨b, hb⟩ := condBlockHolds_total env (fieldValue payee narration fc.1)
            fc.2 (fun pt hpt => hknown fc (by simp) pt hpt)
          rw [hb]
          cases b with
          | true => rfl
          | false => exact ih hmem2 (fun x hx => hknown x (by simp [hx]))

/-- A rule binding `payee` to an empty predicate block. -/
def ruleC9ok : AccountRule := ⟨"r", [("payee", [])], "Expenses:A"⟩

/-- Witness for the amended C9 at a concrete rule and input. -/
theorem c9_empty_block_matches_witness :
    ruleC9ok.matchesE envNoRe "anything" "" = .ok true :=
  c9_empty_block_matches envNoRe ruleC9ok "anything" "" "payee"
    (by decide) (by decide) (by decide)

/-! ## Shared metadata lemmas -/

/-- Assigning a key makes it readable. -/
theorem getMeta_setMeta (k : String) (v : MetaVal) :
    ∀ m : List (String × MetaVal), getMeta (setMeta m k v) k = some v
  | [] => by simp [setMeta, getMeta]
  | (k1, v1) :: rest => by
      by_cases h : k1 = k
      · simp [setMeta, getMeta, h]
      · rw [setMeta, if_neg h, getMeta,
          List.find?_cons_of_neg _ (by simpa using h)]
        exact getMeta_setMeta k v rest

/-- Assigning a key under a satisfied guard makes it readable. -/
theorem getMeta_ite_setMeta (c : Prop) [Decidable c] (h : c)
    (m : List (String × MetaVal)) :
    getMeta (if c then setMeta m duplicate_meta (.b true) else m)
      duplicate_meta = some (.b true) := by
  rw [if_pos h]
  exact getMeta_setMeta duplicate_meta (.b true) m

/-! ## C5: unmatched classification still emits with fallback (corrected) -/

/-- A classifier callback that always raises. -/
def throwingClassifier : Classifier := fun _ _ => .error ()

/-- Concrete Alipay configuration with a throwing classifier. -/
def aCfgThrow : AlipayCfg :=
  ⟨"Assets:Alipay", [], "Expenses:Uncategorized", some throwingClassifier⟩

/-- A concrete, perfectly ordinary Alipay expense record. -/
def aRec0 : ARecord :=
  ⟨⟨2024, 1, 2⟩, "餐饮美食", "商家A", "", "咖啡", "支出", 35, "余额",
   "交易成功", "T100", "/", ""⟩

/-- C5 counterexample: when the classifier throws, the blanket
`except Exception` of `_parse_transaction` catches it and returns `None` —
the record is dropped, no transaction (with fallback account and `!` flag)
is emitted. -/
theorem c5_throwing_classifier_drops_cex :
    runClassifier aCfgThrow.classifier (alipayPayee aRec0)
      (alipayNarration aRec0) = .error () ∧
    alipayParse aCfgThrow "f.csv" aRec0 = none :=
  ⟨rfl, rfl⟩

/-- C5 amended: when classification does not match — the classifier returns
`matched=false` or no classifier is configured (`runClassifier` then yields
`(false, _)`) — the Alipay and BOC importers still emit the transaction,
with flag `!` and the configured per-direction fallback default as the
counter account.  (A classifier that throws instead causes the record to be
dropped by the blanket exception handler.) -/
theorem c5_fallback_emits (acfg : AlipayCfg) (bcfg : BocCfg)
    (fn card : String) (ar : ARecord) (br : BocRecord) (pa pb : String)
    (hya : alipayPayee ar ≠ "余额宝")
    (hca : runClassifier acfg.classifier (alipayPayee ar) (alipayNarration ar) =
      .ok (false, pa))
    (hcb : runClassifier bcfg.classifier (bocPayee br) (bocNarration br) =
      .ok (false, pb))
    (hcur : br.currency = "人民币") :
    (∃ t, alipayParse acfg fn ar = some t ∧ t.flag = "!" ∧
      t.postings =
        (if ar.income_expense = "支出" then
          [Posting.mk (alipayAssetAccount acfg ar.payment_method) none,
           Posting.mk acfg.expense_account (some ⟨ar.amount, "CNY"⟩)]
        else
          [Posting.mk (alipayAssetAccount acfg ar.payment_method)
             (some ⟨ar.amount, "CNY"⟩),
           Posting.mk "Income:RedPacket" none])) ∧
    (∃ t, bocParse bcfg fn card br = some t ∧ t.flag = "!" ∧
      t.postings =
        (if br.is_expense then
          [Posting.mk (bcfg.account ++ ":" ++ card) none,
           Posting.mk bcfg.expense_account (some ⟨br.amount, "CNY"⟩)]
        else
          [Posting.mk (bcfg.account ++ ":" ++ card) (some ⟨br.amount, "CNY"⟩),
           Posting.mk bcfg.income_account none])) := by
  constructor
  · simp only [alipayParse, if_neg hya, hca]
    exact ⟨_, rfl, rfl, rfl⟩
  · simp only [bocParse, hcur, hcb]
    rw [if_neg (by simp)]
    exact ⟨_, rfl, rfl, rfl⟩

/-- Concrete Alipay and BOC configurations with no classifier. -/
def aCfg0 : AlipayCfg := ⟨"Assets:Alipay", [], "Expenses:Uncategorized", none⟩

/-- Concrete BOC debit configuration with no classifier. -/
def bCfg0 : BocCfg :=
  ⟨"Assets:BOC", "Expenses:Uncategorized", "Income:Uncategorized", true, none⟩

/-- A concrete BOC debit expense record in the expected currency. -/
def bRec0 : BocRecord :=
  ⟨"1234", ⟨2024, 5, 6⟩, "12:00:00", "人民币", true, 50, 1000, "消费",
   "网上银行", "", "", "张三", "622200", "NB"⟩

/-- Witness for the amended C5: with no classifier configured, both
importers emit uncertain transactions on the fallback accounts. -/
theorem c5_fallback_emits_witness :
    (∃ t, alipayParse aCfg0 "f.csv" aRec0 = some t ∧ t.flag = "!" ∧
      t.postings =
        (if aRec0.income_expense = "支出" then
          [Posting.mk (alipayAssetAccount aCfg0 aRec0.payment_method) none,
           Posting.mk aCfg0.expense_account (some ⟨aRec0.amount, "CNY"⟩)]
        else
          [Posting.mk (alipayAssetAccount aCfg0 aRec0.payment_method)
             (some ⟨aRec0.amount, "CNY"⟩),
           Posting.mk "Income:RedPacket" none])) ∧
    (∃ t, bocParse bCfg0 "f.csv" "1234" bRec0 = some t ∧ t.flag = "!" ∧
      t.postings =
        (if bRec0.is_expense then
          [Posting.mk (bCfg0.account ++ ":" ++ "1234") none,
           Posting.mk bCfg0.expense_account (some ⟨bRec0.amount, "CNY"⟩)]
        else
          [Posting.mk (bCfg0.account ++ ":" ++ "1234")
             (some ⟨bRec0.amount, "CNY"⟩),
           Posting.mk bCfg0.income_account none])) :=
  c5_fallback_emits aCfg0 bCfg0 "f.csv" "1234" aRec0 bRec0 "" ""
    (by decide) rfl rfl (by decide)

/-! ## C6: WeChat withdrawal-with-fee synthesizes three postings -/

/-- C6: every WeChat expense record of the `零钱提现` subtype synthesizes a
transaction with exactly the three postings source-account (explicit
negative amount), destination account (implicit) and fee account (explicit
fee); when the fee sub-pattern finds nothing in the note the fee is zero
and synthesis still succeeds. -/
theorem c6_withdrawal_three_postings (cfg : WechatCfg) (fn : String)
    (r : WRecord) (v : Bool × String)
    (hc : runClassifier cfg.classifier (wechatPayee r) (wechatNarration r) =
      .ok v)
    (hni : r.income_expense ≠ "收入")
    (hty : r.transaction_category = "零钱提现") :
    ∃ t, wechatParse cfg fn r = some t ∧
      t.postings =
        [Posting.mk (wechatAssetAccount cfg r.payment_method)
           (some ⟨-r.amount, "CNY"⟩),
         Posting.mk (wechatAssetAccount cfg r.payment_method) none,
         Posting.mk cfg.fee_account (some ⟨wechatFee r.note, "CNY"⟩)] ∧
      (feeSearch r.note.toList = none → wechatFee r.note = 0) := by
  obtain ⟨rel, pred⟩ := v
  simp only [wechatParse, hc]
  refine ⟨_, rfl, ?_, ?_⟩
  · simp [hni, hty]
  · intro hs
    rw [wechatFee]
    split
    · rw [hs]; rfl
    · rfl

/-- Concrete WeChat configuration with no classifier. -/
def wCfg0 : WechatCfg :=
  ⟨"Assets:WeChat", "Expenses:Fee", [], "Expenses:Uncategorized", none⟩

/-- A concrete WeChat withdrawal record whose note carries no parseable fee
amount. -/
def wRecNoFee : WRecord :=
  ⟨⟨2024, 3, 4⟩, "10:00:00", "零钱提现", "零钱提现-到账", "/", "支出", 200,
   "招商银行", "提现已到账", "W1", "", "服务费已抵扣"⟩

/-- Witness for C6: the withdrawal record with an unparseable fee note
yields the three postings with a zero fee. -/
theorem c6_withdrawal_three_postings_witness :
    ∃ t, wechatParse wCfg0 "f.csv" wRecNoFee = some t ∧
      t.postings =
        [Posting.mk (wechatAssetAccount wCfg0 wRecNoFee.payment_method)
           (some ⟨-wRecNoFee.amount, "CNY"⟩),
         Posting.mk (wechatAssetAccount wCfg0 wRecNoFee.payment_method) none,
         Posting.mk wCfg0.fee_account (some ⟨wechatFee wRecNoFee.note, "CNY"⟩)] ∧
      (feeSearch wRecNoFee.note.toList = none → wechatFee wRecNoFee.note = 0) :=
  c6_withdrawal_three_postings wCfg0 "f.csv" wRecNoFee (false, "") rfl
    (by decide) (by decide)

/-! ## C7: currency mismatch skips the record, extraction continues -/

/-- C7: a BOC record whose currency is not `人民币` yields no transaction,
and extraction of the surrounding records proceeds exactly as if the
record were absent. -/
theorem c7_currency_mismatch_skips (cfg : BocCfg) (fn card : String)
    (r : BocRecord) (pre post : List BocRecord)
    (h : r.currency ≠ "人民币") :
    bocParse cfg fn card r = none ∧
    bocExtract cfg fn (pre ++ r :: post) =
      bocExtract cfg fn pre ++ bocExtract cfg fn post := by
  have hnone : ∀ c, bocParse cfg fn c r = none := by
    intro c; rw [bocParse, if_pos (by simp [h])]
  refine ⟨hnone card, ?_⟩
  rw [bocExtract, bocExtract, bocExtract, List.filterMap_append,
    List.filterMap_cons, hnone r.card_last_four]

/-- A concrete BOC record in an unexpected currency. -/
def bRecUsd : BocRecord :=
  ⟨"1234", ⟨2024, 5, 7⟩, "13:00:00", "美元", true, 10, 990, "消费",
   "网上银行", "", "", "李四", "900001", "NB"⟩

/-- Witness for C7: the USD record is skipped while its neighbours are
still extracted. -/
theorem c7_currency_mismatch_skips_witness :
    bocParse bCfg0 "f.pdf" "1234" bRecUsd = none ∧
    bocExtract bCfg0 "f.pdf" ([bRec0] ++ bRecUsd :: [bRec0]) =
      bocExtract bCfg0 "f.pdf" [bRec0] ++ bocExtract bCfg0 "f.pdf" [bRec0] :=
  c7_currency_mismatch_skips bCfg0 "f.pdf" "1234" bRecUsd [bRec0] [bRec0]
    (by decide)

/-! ## C10: CMB credit repayment rows are flagged duplicate unconditionally -/

/-- C10: every CMB credit record of transaction type `还款` gets the
reserved duplicate metadata key set to `True`, whatever the `ignore_apps`
policy and the payee are. -/
theorem c10_repayment_always_duplicate (cfg : CmbCreditCfg) (fn : String)
    (r : CCRecord) (v : Bool × String)
    (hc : runClassifier cfg.classifier
      ((ccDescSplit r.transaction_description).1)
      ((ccDescSplit r.transaction_description).2) = .ok v)
    (ht : r.transaction_type = "还款") :
    ∃ t, cmbCreditParse cfg fn r = some t ∧
      getMeta t.meta duplicate_meta = some (.b true) := by
  obtain ⟨rel, pred⟩ := v
  simp only [cmbCreditParse, hc, ht]
  exact ⟨_, rfl, getMeta_ite_setMeta True True.intro _⟩

/-- Concrete CMB credit configuration with the ignore-apps policy disabled
and no classifier. -/
def ccCfg0 : CmbCreditCfg :=
  ⟨"Liabilities:Credit:CMB", "Expenses:Uncategorized", "Assets:Uncategorized",
   false, none⟩

/-- A concrete repayment record whose payee carries no app marker. -/
def ccRec0 : CCRecord :=
  ⟨"还款", none, ⟨2024, 8, 9⟩, "自动还款", 1200, "5678"⟩

/-- Witness for C10: the repayment record is flagged duplicate although
`ignore_apps` is off and the payee has no app marker. -/
theorem c10_repayment_always_duplicate_witness :
    (ccCfg0.ignore_apps = false) ∧
    (cmbCreditApps.any
      (fun app => pyIn app ((ccDescSplit ccRec0.transaction_description).1)) =
        false) ∧
    ∃ t, cmbCreditParse ccCfg0 "f.pdf" ccRec0 = some t ∧
      getMeta t.meta duplicate_meta = some (.b true) :=
  ⟨rfl, by decide,
   c10_repayment_always_duplicate ccCfg0 "f.pdf" ccRec0 (false, "") rfl rfl⟩

/-! ## C8: the duplicate flag is additive, not destructive (corrected) -/

/-- Remove every binding of one key from a metadata dict. -/
def eraseKey (m : List (String × MetaVal)) (k : String) :
    List (String × MetaVal) :=
  m.filter (fun e => decide (e.1 ≠ k))

/-- A transaction with the reserved duplicate key removed from its
metadata. -/
def eraseDup (t : Transaction) : Transaction :=
  { t with meta := eraseKey t.meta duplicate_meta }

/-- Erasing a key cancels assigning it. -/
theorem eraseKey_setMeta (k : String) (v : MetaVal) :
    ∀ m : List (String × MetaVal), eraseKey (setMeta m k v) k = eraseKey m k
  | [] => by simp [setMeta, eraseKey]
  | (k1, v1) :: rest => by
      have ih := eraseKey_setMeta k v rest
      by_cases h : k1 = k
      · simp [setMeta, eraseKey, h]
      · simp only [setMeta, if_neg h, eraseKey, List.filter_cons] at ih ⊢
        simp [h]
        simpa using ih

/-- Erasing the duplicate key cancels a guarded assignment of it. -/
theorem eraseKey_ite_setMeta (c : Prop) [Decidable c]
    (m : List (String × MetaVal)) :
    eraseKey (if c then setMeta m duplicate_meta (.b true) else m)
      duplicate_meta = eraseKey m duplicate_meta := by
  split
  · exact eraseKey_setMeta duplicate_meta (.b true) m
  · rfl

/-- The base metadata of the BOC and CMB debit importers never carries the
duplicate key. -/
theorem getMeta_base_time_none (fn tv : String) :
    getMeta (newMetadata fn ++ [("time", MetaVal.s tv)]) duplicate_meta =
      none := by
  simp [getMeta, newMetadata, duplicate_meta, List.find?]

/-- A guarded assignment of the duplicate key over the base metadata is
readable exactly when the guard holds. -/
theorem getMeta_ite_setMeta_iff (c : Prop) [Decidable c]
    (m : List (String × MetaVal)) (hm : getMeta m duplicate_meta = none) :
    getMeta (if c then setMeta m duplicate_meta (.b true) else m)
      duplicate_meta = (if c then some (.b true) else none) := by
  split
  · exact getMeta_setMeta duplicate_meta (.b true) m
  · exact hm

/-- The ignore-apps policy of the BOC debit importer only ever touches the
duplicate metadata key, and triggers on the payee alone. -/
theorem bocParse_ignore_apps_frame (bcfg : BocCfg) (fn card : String)
    (br : BocRecord) :
    (Option.map eraseDup
        (bocParse { bcfg with ignore_apps := true } fn card br) =
      Option.map eraseDup
        (bocParse { bcfg with ignore_apps := false } fn card br)) ∧
    (Option.map (fun t => (t.postings, t.date, t.payee, t.narration, t.flag))
        (bocParse { bcfg with ignore_apps := true } fn card br) =
      Option.map (fun t => (t.postings, t.date, t.payee, t.narration, t.flag))
        (bocParse { bcfg with ignore_apps := false } fn card br)) ∧
    (∀ t, bocParse { bcfg with ignore_apps := false } fn card br = some t →
      getMeta t.meta duplicate_meta = none) ∧
    (∀ t, bocParse { bcfg with ignore_apps := true } fn card br = some t →
      getMeta t.meta duplicate_meta =
        (if bocApps.any (fun app => pyIn app (bocPayee br)) then
          some (.b true) else none)) := by
  by_cases hcur : br.currency ≠ "人民币"
  · simp [bocParse, hcur]
  · cases hclb : runClassifier bcfg.classifier (bocPayee br)
        (bocNarration br) with
    | error e => simp [bocParse, hcur, hclb]
    | ok vb =>
        obtain ⟨relb, predb⟩ := vb
        simp only [bocParse, if_neg hcur, hclb, Option.map]
        refine ⟨?_, by trivial, ?_, ?_⟩
        · simp [eraseDup, eraseKey_ite_setMeta]
        · intro t ht
          cases ht
          simp [getMeta_base_time_none]
        · intro t ht
          cases ht
          simpa using getMeta_ite_setMeta_iff
            ((bocApps.any fun app => pyIn app (bocPayee br)) = true)
            (newMetadata fn ++ [("time", MetaVal.s br.transaction_time)])
            (getMeta_base_time_none fn br.transaction_time)

/-- The ignore-apps policy of the CMB debit importer only ever touches the
duplicate metadata key, and triggers on the narration alone. -/
theorem cmbParse_ignore_apps_frame (ccfg : CmbCfg) (fn : String)
    (cr : CmbRecord) :
    (Option.map eraseDup (cmbParse { ccfg with ignore_apps := true } fn cr) =
      Option.map eraseDup (cmbParse { ccfg with ignore_apps := false } fn cr)) ∧
    (Option.map (fun t => (t.postings, t.date, t.payee, t.narration, t.flag))
        (cmbParse { ccfg with ignore_apps := true } fn cr) =
      Option.map (fun t => (t.postings, t.date, t.payee, t.narration, t.flag))
        (cmbParse { ccfg with ignore_apps := false } fn cr)) ∧
    (∀ t, cmbParse { ccfg with ignore_apps := false } fn cr = some t →
      getMeta t.meta duplicate_meta = none) ∧
    (∀ t, cmbParse { ccfg with ignore_apps := true } fn cr = some t →
      getMeta t.meta duplicate_meta =
        (if cmbApps.any (fun app => pyIn app cr.transaction_note) then
          some (.b true) else none)) := by
  cases hcl : runClassifier ccfg.classifier cr.transaction_type
      cr.transaction_note with
  | error e => simp [cmbParse, hcl]
  | ok v =>
      obtain ⟨rel, pred⟩ := v
      simp only [cmbParse, hcl, Option.map]
      refine ⟨?_, by trivial, ?_, ?_⟩
      · simp [eraseDup, eraseKey_ite_setMeta]
      · intro t ht
        cases ht
        simp [getMeta_base_time_none]
      · intro t ht
        cases ht
        simpa using getMeta_ite_setMeta_iff
          ((cmbApps.any fun app => pyIn app cr.transaction_note) = true)
          (newMetadata fn ++ [("time", MetaVal.s cr.transaction_time)])
          (getMeta_base_time_none fn cr.transaction_time)

/-- C8 amended: for every record, enabling the ignore-apps policy versus
disabling it yields transactions identical up to the reserved duplicate
metadata key — postings, amounts, date, payee, narration and flag are the
same — and the key is set exactly when the source-specific matched field
contains a configured app marker: the *payee* for the BOC debit importer,
the *narration* for the CMB debit importer (not "payee or narration"). -/
theorem c8_dup_flag_additive (bcfg : BocCfg) (ccfg : CmbCfg)
    (fn card : String) (br : BocRecord) (cr : CmbRecord) :
    (Option.map eraseDup
        (bocParse { bcfg with ignore_apps := true } fn card br) =
      Option.map eraseDup
        (bocParse { bcfg with ignore_apps := false } fn card br)) ∧
    (Option.map (fun t => (t.postings, t.date, t.payee, t.narration, t.flag))
        (bocParse { bcfg with ignore_apps := true } fn card br) =
      Option.map (fun t => (t.postings, t.date, t.payee, t.narration, t.flag))
        (bocParse { bcfg with ignore_apps := false } fn card br)) ∧
    (∀ t, bocParse { bcfg with ignore_apps := false } fn card br = some t →
      getMeta t.meta duplicate_meta = none) ∧
    (∀ t, bocParse { bcfg with ignore_apps := true } fn card br = some t →
      getMeta t.meta duplicate_meta =
        (if bocApps.any (fun app => pyIn app (bocPayee br)) then
          some (.b true) else none)) ∧
    (Option.map eraseDup (cmbParse { ccfg with ignore_apps := true } fn cr) =
      Option.map eraseDup (cmbParse { ccfg with ignore_apps := false } fn cr)) ∧
    (Option.map (fun t => (t.postings, t.date, t.payee, t.narration, t.flag))
        (cmbParse { ccfg with ignore_apps := true } fn cr) =
      Option.map (fun t => (t.postings, t.date, t.payee, t.narration, t.flag))
        (cmbParse { ccfg with ignore_apps := false } fn cr)) ∧
    (∀ t, cmbParse { ccfg with ignore_apps := false } fn cr = some t →
      getMeta t.meta duplicate_meta = none) ∧
    (∀ t, cmbParse { ccfg with ignore_apps := true } fn cr = some t →
      getMeta t.meta duplicate_meta =
        (if cmbApps.any (fun app => pyIn app cr.transaction_note) then
          some (.b true) else none)) := by
  obtain ⟨b1, b2, b3, b4⟩ := bocParse_ignore_apps_frame bcfg fn card br
  obtain ⟨d1, d2, d3, d4⟩ := cmbParse_ignore_apps_frame ccfg fn cr
  exact ⟨b1, b2, b3, b4, d1, d2, d3, d4⟩

/-- A BOC debit record whose narration (transaction name) carries the
`微信` marker while the payee does not. -/
def bRecWx : BocRecord :=
  ⟨"1234", ⟨2024, 5, 6⟩, "12:01:00", "人民币", true, 50, 950, "微信转账",
   "网上银行", "", "", "张三", "622200", "NB"⟩

/-- C8 counterexample: the claim says the duplicate key is added when "the
payee or narration" contains a marker; on this record the narration carries
the `微信` marker, yet the BOC debit importer (which checks the payee only)
adds nothing — the enabled run equals the disabled run and has no duplicate
key. -/
theorem c8_payee_or_narration_cex :
    pyIn "微信" (bocNarration bRecWx) = true ∧
    (bocApps.any (fun app => pyIn app (bocPayee bRecWx))) = false ∧
    bocParse { bCfg0 with ignore_apps := true } "f" "1234" bRecWx =
      bocParse { bCfg0 with ignore_apps := false } "f" "1234" bRecWx ∧
    Option.map (fun t => getMeta t.meta duplicate_meta)
      (bocParse { bCfg0 with ignore_apps := true } "f" "1234" bRecWx) =
      some none :=
  ⟨by decide, by decide, by decide, by decide⟩

/-- An uninhabited-default transaction used only to name computed
results. -/
def junkTx : Transaction := ⟨[], ⟨0, 0, 0⟩, "", "", "", []⟩

/-- Concrete CMB debit configuration with no classifier. -/
def cCfg0 : CmbCfg :=
  ⟨"Assets:CMB", "Expenses:Uncategorized", "Income:Uncategorized", true, none⟩

/-- A concrete CMB debit record whose narration carries the `财付通-`
marker. -/
def cmbRec0 : CmbRecord :=
  ⟨"6066", ⟨2024, 9, 1⟩, "09:30:00", true, 20, 500, "消费", "财付通-超市"⟩

/-- The transaction the BOC debit importer emits for `bRec0` with the
policy enabled. -/
def bTxOn8 : Transaction :=
  (bocParse { bCfg0 with ignore_apps := true } "f" "1234" bRec0).getD junkTx

/-- The transaction the CMB debit importer emits for `cmbRec0` with the
policy enabled. -/
def cTxOn8 : Transaction :=
  (cmbParse { cCfg0 with ignore_apps := true } "f" cmbRec0).getD junkTx

/-- Witness for the amended C8 at concrete configurations and records. -/
theorem c8_dup_flag_additive_witness :
    (Option.map eraseDup
        (bocParse { bCfg0 with ignore_apps := true } "f" "1234" bRec0) =
      Option.map eraseDup
        (bocParse { bCfg0 with ignore_apps := false } "f" "1234" bRec0)) ∧
    (getMeta bTxOn8.meta duplicate_meta =
      (if bocApps.any (fun app => pyIn app (bocPayee bRec0)) then
        some (.b true) else none)) ∧
    (Option.map eraseDup (cmbParse { cCfg0 with ignore_apps := true } "f" cmbRec0) =
      Option.map eraseDup
        (cmbParse { cCfg0 with ignore_apps := false } "f" cmbRec0)) ∧
    (getMeta cTxOn8.meta duplicate_meta =
      (if cmbApps.any (fun app => pyIn app cmbRec0.transaction_note) then
        some (.b true) else none)) :=
  ⟨(c8_dup_flag_additive bCfg0 cCfg0 "f" "1234" bRec0 cmbRec0).1,
   (c8_dup_flag_additive bCfg0 cCfg0 "f" "1234" bRec0 cmbRec0).2.2.2.1
     bTxOn8 (by decide),
   (c8_dup_flag_additive bCfg0 cCfg0 "f" "1234" bRec0 cmbRec0).2.2.2.2.1,
   (c8_dup_flag_additive bCfg0 cCfg0 "f" "1234" bRec0 cmbRec0).2.2.2.2.2.2.2
     cTxOn8 (by decide)⟩

/-! ## C1: the balance invariant -/

/-- A transaction with exactly one implicit posting satisfies the balance
invariant (interpolation assigns the implicit posting the negated residual
of each currency). -/
theorem balancedTx_of_implicitCount_one (t : Transaction)
    (h : implicitCount t = 1) : balancedTx t :=
  ⟨by omega, fun h0 => ((by omega : False)).elim⟩

/-- Every transaction synthesized by the WeChat importer has exactly one
implicit posting. -/
theorem wechatParse_implicitCount (cfg : WechatCfg) (fn : String)
    (r : WRecord) (t : Transaction) (h : wechatParse cfg fn r = some t) :
    implicitCount t = 1 := by
  rw [wechatParse] at h
  split at h
  · cases h
  · cases h
    by_cases h1 : r.income_expense = "收入" <;>
      by_cases h2 : r.transaction_category = "零钱提现" <;>
        simp [implicitCount, h1, h2]

/-- Every transaction synthesized by the Alipay importer has exactly one
implicit posting. -/
theorem alipayParse_implicitCount (cfg : AlipayCfg) (fn : String)
    (r : ARecord) (t : Transaction) (h : alipayParse cfg fn r = some t) :
    implicitCount t = 1 := by
  simp only [alipayParse] at h
  split at h
  · cases h
  · cases hcl : runClassifier cfg.classifier (alipayPayee r) (alipayNarration r) with
    | error e => simp [hcl] at h
    | ok v =>
        obtain ⟨rel, pred⟩ := v
        simp only [hcl] at h
        cases h
        by_cases h1 : r.income_expense = "支出" <;> simp [implicitCount, h1]

/-- Every transaction synthesized by the BOC debit importer has exactly one
implicit posting. -/
theorem bocParse_implicitCount (cfg : BocCfg) (fn card : String)
    (r : BocRecord) (t : Transaction) (h : bocParse cfg fn card r = some t) :
    implicitCount t = 1 := by
  simp only [bocParse] at h
  split at h
  · cases h
  · cases hcl : runClassifier cfg.classifier (bocPayee r) (bocNarration r) with
    | error e => simp [hcl] at h
    | ok v =>
        obtain ⟨rel, pred⟩ := v
        simp only [hcl] at h
        cases h
        by_cases h1 : r.is_expense <;> simp [implicitCount, h1]

/-- Appending an explicit posting does not change the number of implicit
postings. -/
theorem implicitCount_append_explicit (t : Transaction) (a : String)
    (x : Amt) :
    implicitCount { t with postings := t.postings ++ [⟨a, some x⟩] } =
      implicitCount t := by
  simp [implicitCount, List.filter_append]

/-- A fresh BOC credit transaction has exactly one implicit posting. -/
theorem bcFresh_implicitCount (cfg : BocCreditCfg) (fn : String)
    (r : BCRecord) (rel : Bool) (pred : String) :
    implicitCount (bcFresh cfg fn r rel pred) = 1 := by
  rw [bcFresh]
  by_cases h : r.is_expense <;> simp [implicitCount, h]

/-- Membership in an in-place update. -/
theorem mem_updTx {e : (Date × String × String) × Transaction} :
    ∀ (s : MState) (k : Date × String × String) (f : Transaction → Transaction),
      e ∈ updTx s k f → e ∈ s ∨ ∃ e0, e0 ∈ s ∧ e = (e0.1, f e0.2)
  | [], _, _, h => absurd h (by simp [updTx])
  | (k1, t) :: rest, k, f, h => by
      rw [updTx] at h
      by_cases hk : k1 = k
      · rw [if_pos hk] at h
        rcases List.mem_cons.mp h with he | he
        · exact Or.inr ⟨(k1, t), by simp, by simp [he]⟩
        · exact Or.inl (by simp [he])
      · rw [if_neg hk] at h
        rcases List.mem_cons.mp h with he | he
        · exact Or.inl (by simp [he])
        · rcases mem_updTx rest k f he with h1 | ⟨e0, he0, heq⟩
          · exact Or.inl (by simp [h1])
          · exact Or.inr ⟨e0, by simp [he0], heq⟩

/-- One merge-engine step preserves the one-implicit-posting invariant of
every cached transaction. -/
theorem bocCreditStep_implicit (cfg : BocCreditCfg) (fn : String)
    (s : MState) (r : BCRecord)
    (hs : ∀ e ∈ s, implicitCount e.2 = 1) :
    ∀ e ∈ bocCreditStep cfg fn s r, implicitCount e.2 = 1 := by
  intro e he
  rw [bocCreditStep] at he
  split at he
  · exact hs e he
  · split at he
    · rcases mem_updTx s (bcKey r) _ he with h1 | ⟨e0, he0, heq⟩
      · exact hs e h1
      · rw [heq]
        simpa [implicitCount, List.filter_append, bcMergePosting]
          using hs e0 he0
    · rcases List.mem_append.mp he with h1 | h1
      · exact hs e h1
      · rw [List.mem_singleton.mp h1]
        exact bcFresh_implicitCount cfg fn r _ _

/-- The merge-engine fold preserves the one-implicit-posting invariant. -/
theorem bocCredit_foldl_implicit (cfg : BocCreditCfg) (fn : String) :
    ∀ (recs : List BCRecord) (s : MState),
      (∀ e ∈ s, implicitCount e.2 = 1) →
      ∀ e ∈ recs.foldl (bocCreditStep cfg fn) s, implicitCount e.2 = 1
  | [], _, hs => hs
  | r :: rest, s, hs => by
      rw [List.foldl_cons]
      exact bocCredit_foldl_implicit cfg fn rest _
        (bocCreditStep_implicit cfg fn s r hs)

/-- C1: every transaction emitted by the WeChat, Alipay and BOC debit
importers, and every transaction emitted by the BOC credit extract — the
two-posting ordinary cases, the WeChat three-posting withdrawal case, and
transactions extended by leg-merge appends — satisfies the balance
invariant: at most one implicit posting, and explicit amounts summing to
zero per currency whenever there is no implicit posting. -/
theorem c1_balance_invariant :
    (∀ (cfg : WechatCfg) (fn : String) (r : WRecord) (t : Transaction),
      wechatParse cfg fn r = some t → balancedTx t) ∧
    (∀ (cfg : AlipayCfg) (fn : String) (r : ARecord) (t : Transaction),
      alipayParse cfg fn r = some t → balancedTx t) ∧
    (∀ (cfg : BocCfg) (fn card : String) (r : BocRecord) (t : Transaction),
      bocParse cfg fn card r = some t → balancedTx t) ∧
    (∀ (cfg : BocCreditCfg) (fn : String) (recs : List BCRecord)
      (t : Transaction), t ∈ bocCreditExtract cfg fn recs → balancedTx t) := by
  refine ⟨?_, ?_, ?_, ?_⟩
  · intro cfg fn r t h
    exact balancedTx_of_implicitCount_one t (wechatParse_implicitCount cfg fn r t h)
  · intro cfg fn r t h
    exact balancedTx_of_implicitCount_one t (alipayParse_implicitCount cfg fn r t h)
  · intro cfg fn card r t h
    exact balancedTx_of_implicitCount_one t (bocParse_implicitCount cfg fn card r t h)
  · intro cfg fn recs t h
    rw [bocCreditExtract, bocCreditExtractFrom] at h
    obtain ⟨e, he, het⟩ := List.mem_map.mp h
    exact balancedTx_of_implicitCount_one t
      (het ▸ bocCredit_foldl_implicit cfg fn recs [] (by simp) e he)

/-- Concrete BOC credit configuration with no classifier. -/
def bcCfg0 : BocCreditCfg :=
  ⟨"Liabilities:Credit:BOC", "Expenses:Uncategorized", "Assets:Uncategorized",
   true, none⟩

/-- An expense record and a refund record under the same merge key. -/
def bcRecA : BCRecord :=
  ⟨⟨2024, 7, 1⟩, ⟨2024, 7, 2⟩, "9876", "Hotel X", 500, "CNY", true⟩

/-- The refund leg of the same purchase (same posted date, card, payee). -/
def bcRecB : BCRecord :=
  ⟨⟨2024, 7, 1⟩, ⟨2024, 7, 2⟩, "9876", "Hotel X", 120, "CNY", false⟩

/-- The WeChat withdrawal transaction of `wRecNoFee`. -/
def wTx1 : Transaction := (wechatParse wCfg0 "f.csv" wRecNoFee).getD junkTx

/-- The single merged transaction of the two-leg BOC credit statement. -/
def bcTx1 : Transaction :=
  (bocCreditExtract bcCfg0 "f.pdf" [bcRecA, bcRecB]).getD 0 junkTx

/-- Witness for C1: the three-posting WeChat withdrawal and the
merge-extended three-posting BOC credit transaction are balanced. -/
theorem c1_balance_invariant_witness :
    wechatParse wCfg0 "f.csv" wRecNoFee = some wTx1 ∧ balancedTx wTx1 ∧
    bcTx1 ∈ bocCreditExtract bcCfg0 "f.pdf" [bcRecA, bcRecB] ∧
    balancedTx bcTx1 :=
  ⟨by decide, c1_balance_invariant.1 wCfg0 "f.csv" wRecNoFee wTx1 (by decide),
   by decide,
   c1_balance_invariant.2.2.2 bcCfg0 "f.pdf" [bcRecA, bcRecB] bcTx1 (by decide)⟩

/-! ## C2: the leg-merge engine -/

/-- Updating a key rewrites exactly its first binding. -/
theorem findTx_updTx_self (k : Date × String × String)
    (f : Transaction → Transaction) :
    ∀ s : MState, findTx (updTx s k f) k = (findTx s k).map f
  | [] => rfl
  | (k1, t) :: rest => by
      by_cases h : k1 = k
      · simp [updTx, findTx, h]
      · rw [updTx, if_neg h, findTx,
          List.find?_cons_of_neg _ (by simpa using h), findTx,
          List.find?_cons_of_neg _ (by simpa using h)]
        exact findTx_updTx_self k f rest

/-- Updating one key leaves every other key's binding unchanged. -/
theorem findTx_updTx_ne (k k2 : Date × String × String)
    (f : Transaction → Transaction) (h : k ≠ k2) :
    ∀ s : MState, findTx (updTx s k2 f) k = findTx s k
  | [] => rfl
  | (k1, t) :: rest => by
      by_cases h1 : k1 = k2
      · have h2 : ¬k1 = k := fun he => h (he.symm.trans h1)
        rw [updTx, if_pos h1, findTx,
          List.find?_cons_of_neg _ (by simpa using h2), findTx,
          List.find?_cons_of_neg _ (by simpa using h2)]
      · rw [updTx, if_neg h1]
        by_cases h2 : k1 = k
        · simp [findTx, h2]
        · rw [findTx, List.find?_cons_of_neg _ (by simpa using h2), findTx,
            List.find?_cons_of_neg _ (by simpa using h2)]
          exact findTx_updTx_ne k k2 f h rest

/-- In-place update does not change the number of cached entries. -/
theorem length_updTx (k : Date × String × String)
    (f : Transaction → Transaction) :
    ∀ s : MState, (updTx s k f).length = s.length
  | [] => rfl
  | (k1, t) :: rest => by
      by_cases h : k1 = k
      · simp [updTx, h]
      · simp [updTx, h, length_updTx k f rest]

/-- A binding present on the left survives an append. -/
theorem findTx_append_left (k : Date × String × String) (t : Transaction)
    (l : MState) :
    ∀ s : MState, findTx s k = some t → findTx (s ++ l) k = some t
  | [], h => by cases h
  | (k1, t1) :: rest, h => by
      by_cases h1 : k1 = k
      · simpa [findTx, h1] using h
      · rw [findTx, List.find?_cons_of_neg _ (by simpa using h1)] at h
        rw [List.cons_append, findTx,
          List.find?_cons_of_neg _ (by simpa using h1)]
        exact findTx_append_left k t l rest h

/-- Appending a fresh binding to a state without the key. -/
theorem findTx_append_none (k k2 : Date × String × String) (t : Transaction) :
    ∀ s : MState, findTx s k = none →
      findTx (s ++ [(k2, t)]) k = if k = k2 then some t else none
  | [], _ => by
      by_cases h : k = k2
      · simp [findTx, h, List.find?]
      · have h2 : ¬(k2 = k) := fun he => h he.symm
        simp [findTx, List.find?, h, h2]
  | (k1, t1) :: rest, h => by
      by_cases h1 : k1 = k
      · simp [findTx, h1, List.find?] at h
      · rw [findTx, List.find?_cons_of_neg _ (by simpa using h1)] at h
        rw [List.cons_append, findTx,
          List.find?_cons_of_neg _ (by simpa using h1)]
        exact findTx_append_none k k2 t rest h

/-- An absent key does not occur among the state's keys. -/
theorem not_mem_keys_of_findTx_none (k : Date × String × String) :
    ∀ s : MState, findTx s k = none → k ∉ s.map Prod.fst
  | [], _ => by simp
  | (k1, t1) :: rest, h => by
      by_cases h1 : k1 = k
      · simp [findTx, h1, List.find?] at h
      · rw [findTx, List.find?_cons_of_neg _ (by simpa using h1)] at h
        simp only [List.map_cons, List.mem_cons]
        rintro (he | he)
        · exact h1 he.symm
        · exact not_mem_keys_of_findTx_none k rest h he

/-- In-place update keeps the key sequence. -/
theorem keys_updTx (k : Date × String × String)
    (f : Transaction → Transaction) :
    ∀ s : MState, (updTx s k f).map Prod.fst = s.map Prod.fst
  | [] => rfl
  | (k1, t) :: rest => by
      by_cases h : k1 = k
      · simp [updTx, h]
      · simp [updTx, h, keys_updTx k f rest]

/-- One merge-engine step keeps the cached keys without duplicates. -/
theorem bocCreditStep_keys_nodup (cfg : BocCreditCfg) (fn : String)
    (s : MState) (r : BCRecord) (hs : (s.map Prod.fst).Nodup) :
    ((bocCreditStep cfg fn s r).map Prod.fst).Nodup := by
  rw [bocCreditStep]
  split
  · exact hs
  · split
    · rw [keys_updTx]
      exact hs
    · rename_i hfr
      rw [List.map_append, List.map_cons, List.map_nil, List.nodup_append]
      refine ⟨hs, List.nodup_singleton _, ?_⟩
      intro a ha hb
      rw [List.mem_singleton] at hb
      subst hb
      exact not_mem_keys_of_findTx_none (bcKey r) s hfr ha

/-- The merge-engine fold keeps the cached keys without duplicates. -/
theorem bocCredit_foldl_keys_nodup (cfg : BocCreditCfg) (fn : String) :
    ∀ (recs : List BCRecord) (s : MState), (s.map Prod.fst).Nodup →
      (((recs.foldl (bocCreditStep cfg fn) s)).map Prod.fst).Nodup
  | [], _, hs => hs
  | r :: rest, s, hs => by
      rw [List.foldl_cons]
      exact bocCredit_foldl_keys_nodup cfg fn rest _
        (bocCreditStep_keys_nodup cfg fn s r hs)

/-- In a duplicate-free state every cached entry is found under its own
key. -/
theorem findTx_of_mem_nodup (e : (Date × String × String) × Transaction) :
    ∀ s : MState, (s.map Prod.fst).Nodup → e ∈ s → findTx s e.1 = some e.2
  | [], _, he => absurd he (by simp)
  | (k1, t1) :: rest, hnd, he => by
      rcases List.mem_cons.mp he with he1 | he1
      · simp [findTx, he1, List.find?]
      · have h1 : ¬k1 = e.1 := by
          intro hk
          exact (List.nodup_cons.mp hnd).1
            (hk ▸ List.mem_map.mpr ⟨e, he1, rfl⟩)
        rw [findTx, List.find?_cons_of_neg _ (by simpa using h1)]
        exact findTx_of_mem_nodup e rest (List.nodup_cons.mp hnd).2 he1

/-- Folding more records preserves the envelope (date, payee, narration,
flag) of every transaction already in the cache; only postings may be
appended. -/
theorem bocCredit_foldl_preserve (cfg : BocCreditCfg) (fn : String) :
    ∀ (recs : List BCRecord) (s : MState) (k : Date × String × String)
      (t0 : Transaction), findTx s k = some t0 →
      ∃ t1, findTx (recs.foldl (bocCreditStep cfg fn) s) k = some t1 ∧
        t1.date = t0.date ∧ t1.payee = t0.payee ∧
        t1.narration = t0.narration ∧ t1.flag = t0.flag
  | [], s, k, t0, h => ⟨t0, h, rfl, rfl, rfl, rfl⟩
  | r :: rest, s, k, t0, h => by
      rw [List.foldl_cons]
      cases hcl : runClassifier cfg.classifier (bcPayee r) (bcNarration r) with
      | error e =>
          rw [show bocCreditStep cfg fn s r = s from by rw [bocCreditStep, hcl]]
          exact bocCredit_foldl_preserve cfg fn rest s k t0 h
      | ok v =>
          obtain ⟨rel, pred⟩ := v
          cases hfr : findTx s (bcKey r) with
          | some u =>
              rw [show bocCreditStep cfg fn s r = updTx s (bcKey r)
                  (fun t => { t with postings :=
                    t.postings ++ [bcMergePosting cfg r] }) from by
                rw [bocCreditStep, hcl, hfr]]
              by_cases hk : k = bcKey r
              · subst hk
                have hu : u = t0 := Option.some_injective _ (hfr.symm.trans h)
                subst hu
                exact bocCredit_foldl_preserve cfg fn rest
                  (updTx s (bcKey r) (fun t => { t with postings :=
                    t.postings ++ [bcMergePosting cfg r] })) (bcKey r)
                  { u with postings := u.postings ++ [bcMergePosting cfg r] }
                  (by rw [findTx_updTx_self (bcKey r)
                      (fun t => { t with postings :=
                        t.postings ++ [bcMergePosting cfg r] }) s, hfr]
                      rfl)
              · exact bocCredit_foldl_preserve cfg fn rest _ k t0
                  (by rw [findTx_updTx_ne k (bcKey r)
                      (fun t => { t with postings :=
                        t.postings ++ [bcMergePosting cfg r] }) hk s]
                      exact h)
          | none =>
              rw [show bocCreditStep cfg fn s r =
                  s ++ [(bcKey r, bcFresh cfg fn r rel pred)] from by
                rw [bocCreditStep, hcl, hfr]]
              exact bocCredit_foldl_preserve cfg fn rest _ k t0
                (findTx_append_left k t0 _ s h)

/-- The transaction cached under a key carries the date, payee, narration
and flag of the first record folded under that key. -/
theorem bocCredit_first_record (cfg : BocCreditCfg) (fn : String)
    (hT : ∀ p n, ∃ v, runClassifier cfg.classifier p n = .ok v) :
    ∀ (recs : List BCRecord) (s : MState) (k : Date × String × String)
      (t : Transaction), findTx s k = none →
      findTx (recs.foldl (bocCreditStep cfg fn) s) k = some t →
      ∃ r0 v, recs.find? (fun x => decide (bcKey x = k)) = some r0 ∧
        runClassifier cfg.classifier (bcPayee r0) (bcNarration r0) = .ok v ∧
        t.date = r0.posted_date ∧ t.payee = bcPayee r0 ∧
        t.narration = bcNarration r0 ∧ t.flag = (if v.1 then "*" else "!")
  | [], s, k, t, hnone, hsome => by
      rw [List.foldl_nil] at hsome
      exact absurd (hnone.symm.trans hsome) (by simp)
  | r :: rest, s, k, t, hnone, hsome => by
      rw [List.foldl_cons] at hsome
      obtain ⟨⟨rel, pred⟩, hcl⟩ := hT (bcPayee r) (bcNarration r)
      by_cases hk : bcKey r = k
      · subst hk
        rw [show bocCreditStep cfg fn s r =
            s ++ [(bcKey r, bcFresh cfg fn r rel pred)] from by
          rw [bocCreditStep, hcl, hnone]] at hsome
        have hbase : findTx (s ++ [(bcKey r, bcFresh cfg fn r rel pred)])
            (bcKey r) = some (bcFresh cfg fn r rel pred) := by
          rw [findTx_append_none (bcKey r) (bcKey r) _ s hnone, if_pos rfl]
        obtain ⟨t1, h1, hd, hp, hn, hf⟩ :=
          bocCredit_foldl_preserve cfg fn rest _ (bcKey r) _ hbase
        have ht1 : t = t1 := Option.some_injective _ (hsome.symm.trans h1)
        subst ht1
        refine ⟨r, (rel, pred), ?_, hcl, hd, hp, hn, hf⟩
        rw [List.find?_cons_of_pos _ (by simp)]
      · cases hfr : findTx s (bcKey r) with
        | some u =>
            rw [show bocCreditStep cfg fn s r = updTx s (bcKey r)
                (fun t => { t with postings :=
                  t.postings ++ [bcMergePosting cfg r] }) from by
              rw [bocCreditStep, hcl, hfr]] at hsome
            obtain ⟨r0, v, hfind0, hclv, hfields⟩ :=
              bocCredit_first_record cfg fn hT rest _ k t
                (by rw [findTx_updTx_ne k (bcKey r)
                    (fun t => { t with postings :=
                      t.postings ++ [bcMergePosting cfg r] })
                    (fun he => hk he.symm) s]
                    exact hnone) hsome
            exact ⟨r0, v,
              by rw [List.find?_cons_of_neg _ (by simpa using hk)]; exact hfind0,
              hclv, hfields⟩
        | none =>
            rw [show bocCreditStep cfg fn s r =
                s ++ [(bcKey r, bcFresh cfg fn r rel pred)] from by
              rw [bocCreditStep, hcl, hfr]] at hsome
            obtain ⟨r0, v, hfind0, hclv, hfields⟩ :=
              bocCredit_first_record cfg fn hT rest _ k t
                (by rw [findTx_append_none k (bcKey r) _ s hnone,
                  if_neg (fun he => hk he.symm)]) hsome
            exact ⟨r0, v,
              by rw [List.find?_cons_of_neg _ (by simpa using hk)]; exact hfind0,
              hclv, hfields⟩

/-- C2: the leg-merge engine.  (1) `extract` starts from an empty cache
every call (no key survives across files); (2) a record whose merge key
(posted date, card last four, payee) hits the cache creates no new
transaction: the cached transaction — and it alone — gets exactly one
appended posting, signed negatively for an expense leg and positively for a
refund leg, with its date, payee, flag (and narration) untouched; (3) at
the extract level a repeated key adds no transaction to the output; (4)
every emitted transaction's date, payee and flag are those established by
the first record under its key. -/
theorem c2_leg_merge (cfg : BocCreditCfg) (fn : String) :
    (∀ recs, bocCreditExtract cfg fn recs =
      bocCreditExtractFrom cfg fn [] recs) ∧
    (∀ (s : MState) (r : BCRecord) (t : Transaction) (v : Bool × String),
      runClassifier cfg.classifier (bcPayee r) (bcNarration r) = .ok v →
      findTx s (bcKey r) = some t →
      (bocCreditStep cfg fn s r).length = s.length ∧
      findTx (bocCreditStep cfg fn s r) (bcKey r) =
        some { t with postings := t.postings ++
          [Posting.mk (cfg.account ++ ":" ++ r.card_last_four)
            (some ⟨if r.is_expense then -r.amount else r.amount,
              r.currency⟩)] } ∧
      (∀ k2, k2 ≠ bcKey r →
        findTx (bocCreditStep cfg fn s r) k2 = findTx s k2)) ∧
    (∀ (recs : List BCRecord) (r : BCRecord) (v : Bool × String),
      runClassifier cfg.classifier (bcPayee r) (bcNarration r) = .ok v →
      (findTx (recs.foldl (bocCreditStep cfg fn) []) (bcKey r)).isSome →
      (bocCreditExtract cfg fn (recs ++ [r])).length =
        (bocCreditExtract cfg fn recs).length) ∧
    (∀ (recs : List BCRecord) (t : Transaction),
      (∀ p n, ∃ v, runClassifier cfg.classifier p n = .ok v) →
      t ∈ bocCreditExtract cfg fn recs →
      ∃ r0 v, recs.find? (fun x => decide (bcKey x = bcKey r0)) = some r0 ∧
        runClassifier cfg.classifier (bcPayee r0) (bcNarration r0) = .ok v ∧
        t.date = r0.posted_date ∧ t.payee = bcPayee r0 ∧
        t.narration = bcNarration r0 ∧
        t.flag = (if v.1 then "*" else "!")) := by
  refine ⟨fun recs => rfl, ?_, ?_, ?_⟩
  · intro s r t v hcl hfind
    obtain ⟨rel, pred⟩ := v
    rw [show bocCreditStep cfg fn s r = updTx s (bcKey r)
        (fun t => { t with postings :=
          t.postings ++ [bcMergePosting cfg r] }) from by
      rw [bocCreditStep, hcl, hfind]]
    refine ⟨length_updTx _ _ s, ?_,
      fun k2 hk2 => findTx_updTx_ne k2 (bcKey r)
        (fun t => { t with postings :=
          t.postings ++ [bcMergePosting cfg r] }) hk2 s⟩
    rw [findTx_updTx_self (bcKey r)
      (fun t => { t with postings :=
        t.postings ++ [bcMergePosting cfg r] }) s, hfind]
    rfl
  · intro recs r v hcl hsome
    obtain ⟨rel, pred⟩ := v
    obtain ⟨t, ht⟩ := Option.isSome_iff_exists.mp hsome
    rw [bocCreditExtract, bocCreditExtract, bocCreditExtractFrom,
      bocCreditExtractFrom, List.foldl_append, List.foldl_cons,
      List.foldl_nil, List.length_map, List.length_map,
      show bocCreditStep cfg fn (recs.foldl (bocCreditStep cfg fn) []) r =
        updTx (recs.foldl (bocCreditStep cfg fn) []) (bcKey r)
          (fun t => { t with postings :=
            t.postings ++ [bcMergePosting cfg r] }) from by
        rw [bocCreditStep, hcl, ht], length_updTx]
  · intro recs t hT hmem
    rw [bocCreditExtract, bocCreditExtractFrom] at hmem
    obtain ⟨e, he, het⟩ := List.mem_map.mp hmem
    have hnd := bocCredit_foldl_keys_nodup cfg fn recs [] (by simp)
    have hfind := findTx_of_mem_nodup e _ hnd he
    rw [het] at hfind
    obtain ⟨r0, v, hfind0, hclv, hfields⟩ :=
      bocCredit_first_record cfg fn hT recs [] e.1 t rfl hfind
    have hkey : bcKey r0 = e.1 := by
      simpa using List.find?_some hfind0
    rw [← hkey] at hfind0
    exact ⟨r0, v, hfind0, hclv, hfields⟩

/-- The transaction synthesized for the first record of the two-leg
statement. -/
def bcTxA : Transaction := bcFresh bcCfg0 "f.pdf" bcRecA false ""

/-- The cache after processing the first record of the two-leg
statement. -/
def bcState1 : MState := [(bcKey bcRecA, bcTxA)]

/-- Witness for C2 at the two-record statement `[bcRecA, bcRecB]`, whose
records share the merge key: the cache hit appends exactly the positive
refund posting to the cached transaction without growing the cache, the
extract output does not grow, and the emitted transaction keeps the first
record's date, payee and flag. -/
theorem c2_leg_merge_witness :
    bocCreditExtract bcCfg0 "f.pdf" [bcRecA, bcRecB] =
      bocCreditExtractFrom bcCfg0 "f.pdf" [] [bcRecA, bcRecB] ∧
    (bocCreditStep bcCfg0 "f.pdf" bcState1 bcRecB).length = bcState1.length ∧
    findTx (bocCreditStep bcCfg0 "f.pdf" bcState1 bcRecB) (bcKey bcRecB) =
      some { bcTxA with postings := bcTxA.postings ++
        [Posting.mk (bcCfg0.account ++ ":" ++ bcRecB.card_last_four)
          (some ⟨if bcRecB.is_expense then -bcRecB.amount else bcRecB.amount,
            bcRecB.currency⟩)] } ∧
    (bocCreditExtract bcCfg0 "f.pdf" ([bcRecA] ++ [bcRecB])).length =
      (bocCreditExtract bcCfg0 "f.pdf" [bcRecA]).length ∧
    ∃ r0 v,
      [bcRecA, bcRecB].find? (fun x => decide (bcKey x = bcKey r0)) = some r0 ∧
      runClassifier bcCfg0.classifier (bcPayee r0) (bcNarration r0) = .ok v ∧
      bcTx1.date = r0.posted_date ∧ bcTx1.payee = bcPayee r0 ∧
      bcTx1.narration = bcNarration r0 ∧ bcTx1.flag = (if v.1 then "*" else "!") :=
  ⟨(c2_leg_merge bcCfg0 "f.pdf").1 [bcRecA, bcRecB],
   ((c2_leg_merge bcCfg0 "f.pdf").2.1 bcState1 bcRecB bcTxA (false, "")
     rfl (by decide)).1,
   ((c2_leg_merge bcCfg0 "f.pdf").2.1 bcState1 bcRecB bcTxA (false, "")
     rfl (by decide)).2.1,
   (c2_leg_merge bcCfg0 "f.pdf").2.2.1 [bcRecA] bcRecB (false, "")
     rfl (by decide),
   (c2_leg_merge bcCfg0 "f.pdf").2.2.2 [bcRecA, bcRecB] bcTx1
     (fun p n => ⟨(false, ""), rfl⟩) (by decide)⟩

end Bento
